import Mathlib

/-!
Verification of the `ComplaintsAnalyzer` component (src/src/analysis.py) of the
amex-complaints repository.

The analyzer holds an optional tabular record set (a pandas DataFrame in the
source) and derives: an overview, a keyword-based categorization, a monthly
volume rollup, resolution-time statistics, a top-N issue ranking, and a cached
summary report.  We embed the data model and each method as executable Lean
functions and prove the specification's claims about them.

Modelling conventions:
* A DataFrame is a `RecordSet`: an ordered association list from column name to
  the column's list of cell values.  Cell values are text, integers, parsed
  calendar dates, or missing (NaN/NaT/None).
* `pd.to_datetime` is modelled by `toDatetimeCol`: a missing cell stays missing
  (NaT), an already-parsed date is unchanged, a text cell is parsed as
  YYYY-MM-DD (the format the repository's data uses); an unparsable non-empty
  value raises, modelled as `Except.error .dateParse`.
* Methods that can raise return `Except AnalyzerError`, and methods that
  mutate `self.data` return the updated analyzer alongside their result.
* `Series.value_counts` counts distinct non-missing values (first-encountered
  order) and sorts by descending count; ties keep first-encountered order
  (pandas' documented tie behaviour), modelled by the stable `sortByCountDesc`.
* Floating-point is avoided: means/medians/variances are exact rationals, and
  the `std` statistic is represented by the sample variance `var` (the source
  reports its square root; which rows enter the statistic is unchanged).
  The overview's `data_types` and `memory_usage_mb` fields are pandas dtype
  and byte-accounting internals with no exact content; no claim depends on
  them and they are not modelled.
-/

namespace AmexComplaints

/-- A calendar date (year, month, day), the value of a parsed datetime cell. -/
structure Date where
  year : Nat
  month : Nat
  day : Nat
deriving DecidableEq, Repr

/-- Day number of a civil date (days-from-civil algorithm, shifted by a
constant; only differences of `toDays` values are ever used). -/
def Date.toDays (dt : Date) : Nat :=
  let y := if dt.month ≤ 2 then dt.year - 1 else dt.year
  let mp := if 2 < dt.month then dt.month - 3 else dt.month + 9
  let era := y / 400
  let yoe := y % 400
  let doy := (153 * mp + 2) / 5 + dt.day - 1
  let doe := yoe * 365 + yoe / 4 - yoe / 100 + doy
  era * 146097 + doe

/-- The month bucket of a date, used by `to_period('M')` grouping. -/
def Date.monthKey (dt : Date) : Nat × Nat := (dt.year, dt.month)

/-- A cell value of the record set. -/
inductive Value
  | str (s : String)
  | num (n : Int)
  | date (d : Date)
  | missing
deriving DecidableEq, Repr

/-- The tabular record set: columns in order, each a name with its values. -/
structure RecordSet where
  cols : List (String × List Value)
deriving DecidableEq, Repr

/-- `col in self.data.columns`. -/
def RecordSet.hasCol (rs : RecordSet) (name : String) : Bool :=
  rs.cols.any (fun p => p.1 == name)

/-- `self.data[col]` (read). -/
def RecordSet.getCol (rs : RecordSet) (name : String) : Option (List Value) :=
  (rs.cols.find? (fun p => p.1 == name)).map (fun p => p.2)

/-- `len(self.data)`: the number of rows (length of the first column). -/
def RecordSet.numRows (rs : RecordSet) : Nat :=
  match rs.cols with
  | [] => 0
  | (_, vs) :: _ => vs.length

/-- Helper for column assignment: replace the first column of this name in
place, or append a new column at the end. -/
def setColAux (name : String) (vs : List Value) :
    List (String × List Value) → List (String × List Value)
  | [] => [(name, vs)]
  | (n, old) :: rest =>
    if n == name then (name, vs) :: rest else (n, old) :: setColAux name vs rest

/-- `self.data[col] = values`. -/
def RecordSet.setCol (rs : RecordSet) (name : String) (vs : List Value) : RecordSet :=
  ⟨setColAux name vs rs.cols⟩

/-- Errors the analyzer can raise: `ValueError("No data loaded...")` for
queries before `load_data`, and a date-parse failure from `pd.to_datetime`. -/
inductive AnalyzerError
  | notLoaded
  | dateParse
deriving DecidableEq, Repr

/-- Case-fold a string (`str.lower()`; the data and column names are ASCII). -/
def lowerStr (s : String) : String :=
  ⟨s.data.map Char.toLower⟩

/-- Read a nonempty all-digit character run as a number. -/
def digitsToNat? (cs : List Char) : Option Nat :=
  if cs ≠ [] && cs.all Char.isDigit then
    some (cs.foldl (fun n c => n * 10 + (c.toNat - 48)) 0)
  else none

/-- Split a character list on `'-'`. -/
def splitDash : List Char → List (List Char)
  | [] => [[]]
  | c :: rest =>
    if c == '-' then [] :: splitDash rest
    else
      match splitDash rest with
      | [] => [[c]]
      | g :: gs => (c :: g) :: gs

/-- Parse a `YYYY-MM-DD` text as a calendar date (the date format of the
repository's data files). -/
def parseYMD (s : String) : Option Date :=
  match splitDash s.data with
  | [ys, ms, ds] =>
    match digitsToNat? ys, digitsToNat? ms, digitsToNat? ds with
    | some y, some m, some d =>
      if 1 ≤ m && m ≤ 12 && 1 ≤ d && d ≤ 31 then some ⟨y, m, d⟩ else none
    | _, _, _ => none
  | _ => none

/-- `pd.to_datetime` on one cell: missing stays NaT, dates pass through,
text is parsed, anything unparsable raises. -/
def Value.toDatetime : Value → Except AnalyzerError (Option Date)
  | .missing => .ok none
  | .date d => .ok (some d)
  | .str s =>
    match parseYMD s with
    | some d => .ok (some d)
    | none => .error .dateParse
  | .num _ => .error .dateParse

/-- `pd.to_datetime` on a whole column (fails at the first bad cell). -/
def toDatetimeCol : List Value → Except AnalyzerError (List (Option Date))
  | [] => .ok []
  | v :: vs =>
    match v.toDatetime, toDatetimeCol vs with
    | .ok d, .ok ds => .ok (d :: ds)
    | .error e, _ => .error e
    | .ok _, .error e => .error e

/-- The parsed column written back into the record set (NaT is missing). -/
def datetimeColValues (ds : List (Option Date)) : List Value :=
  ds.map (fun od => match od with | some d => Value.date d | none => Value.missing)

/-- `self.complaint_categories`, in the source's (insertion) order. -/
def complaint_categories : List (String × List String) :=
  [("billing", ["billing", "charge", "payment", "invoice", "fee"]),
   ("service", ["service", "support", "response", "issue", "resolution"]),
   ("account", ["account", "access", "login", "security", "password"]),
   ("product", ["product", "offer", "feature", "benefits", "terms"]),
   ("fraud", ["fraud", "unauthorized", "stolen", "suspicious", "security breach"])]

/-- Is `needle` a leading segment of `hay`? -/
def isPre (needle hay : List Char) : Bool :=
  match needle, hay with
  | [], _ => true
  | _ :: _, [] => false
  | a :: t, b :: u => a == b && isPre t u

/-- Is `needle` a contiguous segment of `hay`? -/
def containsSub (needle : List Char) : List Char → Bool
  | [] => needle.isEmpty
  | b :: u => isPre needle (b :: u) || containsSub needle u

/-- Python's `keyword in text` substring test. -/
def strContains (hay needle : String) : Bool :=
  containsSub needle.toList hay.toList

/-- `fillna('').str.lower()` on one cell: missing becomes the empty string,
text is case-folded.  (The designated text columns hold only text or missing.) -/
def cellText : Value → String
  | .str s => lowerStr s
  | _ => ""

/-- The per-row categorization loop of `categorize_complaints`: the first
category whose keyword list has a substring match wins (`break`), else
`'other'`. -/
def categoryLoop (t : String) : List (String × List String) → String
  | [] => "other"
  | (cat, kws) :: rest =>
    if kws.any (fun kw => strContains t kw) then cat else categoryLoop t rest

/-- The category assigned to one row's text. -/
def assignCategory (t : String) : String :=
  categoryLoop t complaint_categories

/-- The final `categories` dict of `categorize_complaints`: every defined
label with its row count (starting from zero), and an `'other'` entry only
when at least one row was assigned `'other'` (the dict starts without that
key and only gains it inside the loop). -/
def countAssigned (assigned : List String) : List (String × Nat) :=
  complaint_categories.map (fun p => (p.1, assigned.count p.1)) ++
    (if 0 < assigned.count "other" then [("other", assigned.count "other")] else [])

/-- The designated text column: first alias present in the data. -/
def findDescCol (rs : RecordSet) : Option String :=
  ["Complaint", "complaint", "Description", "description", "Issue", "issue"].find?
    (fun c => rs.hasCol c)

/-- The overview structure returned by `get_data_overview`. -/
structure Overview where
  total_complaints : Nat
  total_columns : Nat
  missing_values : List (String × Nat)
deriving DecidableEq, Repr

/-- Count of missing cells in a column (`isnull().sum()`). -/
def countMissing (vs : List Value) : Nat :=
  vs.countP (fun v => match v with | .missing => true | _ => false)

/-- Result of `analyze_complaint_volume`: either the `{'error': ...}` dict for
a missing date column, or the monthly mapping with total and peak month. -/
inductive VolumeResult
  | noDateColumn
  | result (monthly : List ((Nat × Nat) × Nat)) (total : Nat) (peak : Option (Nat × Nat))
deriving DecidableEq, Repr

/-- Strict lexicographic order on month buckets (pandas Period ordering). -/
def monthLt (a b : Nat × Nat) : Bool :=
  a.1 < b.1 || (a.1 == b.1 && a.2 < b.2)

/-- Insert a month key into an ascending list (used to sort group keys the way
`groupby` sorts its index). -/
def insertMonthKey (k : Nat × Nat) : List (Nat × Nat) → List (Nat × Nat)
  | [] => [k]
  | m :: rest => if monthLt k m then k :: m :: rest else m :: insertMonthKey k rest

/-- Sort month keys ascending. -/
def sortMonthKeys : List (Nat × Nat) → List (Nat × Nat)
  | [] => []
  | k :: ks => insertMonthKey k (sortMonthKeys ks)

/-- Distinct month keys (order irrelevant; they are sorted afterwards). -/
def dedupKeys : List (Nat × Nat) → List (Nat × Nat)
  | [] => []
  | k :: ks => if k ∈ dedupKeys ks then dedupKeys ks else k :: dedupKeys ks

/-- `groupby(....dt.to_period('M')).size()`: counts per month bucket, indexed
by ascending month. -/
def monthlyVolume (ms : List (Nat × Nat)) : List ((Nat × Nat) × Nat) :=
  (sortMonthKeys (dedupKeys ms)).map (fun k => (k, ms.count k))

/-- `Series.idxmax` scan: keep the current best, replace only on a strict
improvement (so the first index attaining the maximum wins). -/
def idxmaxFrom (best : (Nat × Nat) × Nat) : List ((Nat × Nat) × Nat) → Nat × Nat
  | [] => best.1
  | p :: rest => if best.2 < p.2 then idxmaxFrom p rest else idxmaxFrom best rest

/-- `monthly_volume.idxmax()` guarded by `len(monthly_volume) > 0`. -/
def seriesIdxmax : List ((Nat × Nat) × Nat) → Option (Nat × Nat)
  | [] => none
  | p :: rest => some (idxmaxFrom p rest)

/-- The date column `analyze_complaint_volume` uses: `'Date'` if present,
otherwise `'date'`. -/
def volumeDateCol (rs : RecordSet) : String :=
  if rs.hasCol "Date" then "Date" else "date"

/-- Resolution-time statistics (the `std` of the source is the square root of
`var`; all five are computed from the same list of day differences). -/
structure RTStats where
  mean : Option Rat
  median : Option Rat
  min : Option Int
  max : Option Int
  var : Option Rat
deriving DecidableEq, Repr

/-- Result of `analyze_resolution_time`: the empty dict when fewer than two
date-like columns or a role is unmatched, else the statistics. -/
inductive RTResult
  | empty
  | stats (s : RTStats)
deriving DecidableEq, Repr

/-- `Series.mean()` with NaN already removed: none on an empty series. -/
def meanQ (xs : List Int) : Option Rat :=
  if xs.length = 0 then none else some ((xs.sum : Rat) / (xs.length : Rat))

/-- Insert into an ascending list of integers. -/
def insertIntAsc (x : Int) : List Int → List Int
  | [] => [x]
  | y :: rest => if x ≤ y then x :: y :: rest else y :: insertIntAsc x rest

/-- Sort integers ascending. -/
def sortIntsAsc (xs : List Int) : List Int :=
  xs.foldr insertIntAsc []

/-- `Series.median()`: middle element, or average of the two middles. -/
def medianQ (xs : List Int) : Option Rat :=
  let s := sortIntsAsc xs
  if s.length = 0 then none
  else if s.length % 2 = 1 then some ((s.getD (s.length / 2) 0 : Int) : Rat)
  else some (((s.getD (s.length / 2 - 1) 0 + s.getD (s.length / 2) 0 : Int) : Rat) / 2)

/-- `Series.min()`: none on an empty series. -/
def minInt? : List Int → Option Int
  | [] => none
  | x :: rest => some (match minInt? rest with | none => x | some m => Min.min x m)

/-- `Series.max()`: none on an empty series. -/
def maxInt? : List Int → Option Int
  | [] => none
  | x :: rest => some (match maxInt? rest with | none => x | some m => Max.max x m)

/-- Sample variance (ddof = 1), the square of `Series.std()`; NaN (none) for
fewer than two observations. -/
def varQ (xs : List Int) : Option Rat :=
  if xs.length < 2 then none
  else
    let n : Rat := (xs.length : Rat)
    let m : Rat := (xs.sum : Rat) / n
    some ((xs.map (fun x => ((x : Rat) - m) ^ 2)).sum / (n - 1))

/-- The columns whose name contains `'date'` case-insensitively, in column
order. -/
def dateColsOf (rs : RecordSet) : List String :=
  (rs.cols.map (fun p => p.1)).filter (fun c => strContains (lowerStr c) "date")

/-- Candidate submitted-date columns (name contains `'submit'` or
`'received'`). -/
def submittedCandidates (rs : RecordSet) : List String :=
  (dateColsOf rs).filter
    (fun c => strContains (lowerStr c) "submit" || strContains (lowerStr c) "received")

/-- Candidate resolved-date columns (name contains `'resolve'` or
`'close'`). -/
def resolvedCandidates (rs : RecordSet) : List String :=
  (dateColsOf rs).filter
    (fun c => strContains (lowerStr c) "resolve" || strContains (lowerStr c) "close")

/-- Day differences `(resolved - submitted).dt.days`: NaN where either date is
missing. -/
def diffDays (ps pr : List (Option Date)) : List (Option Int) :=
  List.zipWith
    (fun os oreso =>
      match os, oreso with
      | some s, some r => some ((r.toDays : Int) - (s.toDays : Int))
      | _, _ => none)
    ps pr

/-- The issue column `get_top_issues` uses: first alias present. -/
def findIssueCol (rs : RecordSet) : Option String :=
  ["Sub-issue", "sub-issue", "Sub_issue", "Issue", "issue"].find? (fun c => rs.hasCol c)

/-- The distinct values of a column in first-encountered order. -/
def uniques (vs : List Value) : List Value :=
  vs.foldl (fun acc v => if v ∈ acc then acc else acc ++ [v]) []

/-- Distinct values with their multiplicities, first-encountered order. -/
def uniqueCounts (vs : List Value) : List (Value × Nat) :=
  (uniques vs).map (fun v => (v, vs.count v))

/-- Stable insert for a descending-by-count sort: pass only strictly larger
counts, so earlier entries stay ahead of equal-count later ones. -/
def insertByCount (p : Value × Nat) : List (Value × Nat) → List (Value × Nat)
  | [] => [p]
  | q :: rest => if p.2 < q.2 then q :: insertByCount p rest else p :: q :: rest

/-- Stable descending-by-count sort. -/
def sortByCountDesc : List (Value × Nat) → List (Value × Nat)
  | [] => []
  | p :: rest => insertByCount p (sortByCountDesc rest)

/-- Is this cell non-missing?  `value_counts` drops NaN. -/
def isPresent : Value → Bool
  | .missing => false
  | _ => true

/-- `Series.value_counts()`: counts of distinct non-missing values, descending
by count, ties in first-encountered order. -/
def value_counts (vs : List Value) : List (Value × Nat) :=
  sortByCountDesc (uniqueCounts (vs.filter isPresent))

/-- `Series.head(n)` / `DataFrame.head(n)`: the first `n` entries for
nonnegative `n`, and all but the last `|n|` entries for negative `n`. -/
def headPd (n : Int) (l : List (Value × Nat)) : List (Value × Nat) :=
  if 0 ≤ n then l.take n.toNat else l.take (l.length - (-n).toNat)

/-- The summary report assembled by `generate_summary_report`. -/
structure AnalysisReport where
  data_overview : Overview
  complaint_volume : VolumeResult
  complaint_categories : List (String × Nat)
  resolution_time : RTResult
  top_issues : List (Value × Nat)
deriving DecidableEq, Repr

/-- The analyzer's state: the held data (None before any load) and the cached
`analysis_results` (the empty dict, modelled as none, before any report). -/
structure ComplaintsAnalyzer where
  data : Option RecordSet
  analysis_results : Option AnalysisReport
deriving DecidableEq, Repr

/-- `ComplaintsAnalyzer()` constructed with no data. -/
def ComplaintsAnalyzer.init : ComplaintsAnalyzer :=
  { data := none, analysis_results := none }

/-- `load_data`: replaces the held record set wholesale. -/
def load_data (a : ComplaintsAnalyzer) (d : RecordSet) : ComplaintsAnalyzer :=
  { a with data := some d }

/-- `get_data_overview`. -/
def get_data_overview (a : ComplaintsAnalyzer) :
    Except AnalyzerError (Overview × ComplaintsAnalyzer) :=
  match a.data with
  | none => .error .notLoaded
  | some rs =>
    .ok (⟨rs.numRows, rs.cols.length, rs.cols.map (fun p => (p.1, countMissing p.2))⟩, a)

/-- `analyze_complaint_volume`.  Note the in-place `pd.to_datetime`
conversion of the date column before grouping. -/
def analyze_complaint_volume (a : ComplaintsAnalyzer) :
    Except AnalyzerError (VolumeResult × ComplaintsAnalyzer) :=
  match a.data with
  | none => .error .notLoaded
  | some rs =>
    if rs.hasCol "Date" || rs.hasCol "date" then
      match toDatetimeCol ((rs.getCol (volumeDateCol rs)).getD []) with
      | .error e => .error e
      | .ok parsed =>
        let rs' := rs.setCol (volumeDateCol rs) (datetimeColValues parsed)
        let months := parsed.filterMap (fun od => od.map Date.monthKey)
        let mv := monthlyVolume months
        .ok (.result mv rs'.numRows (seriesIdxmax mv), { a with data := some rs' })
    else
      .ok (.noDateColumn, a)

/-- `categorize_complaints`. -/
def categorize_complaints (a : ComplaintsAnalyzer) :
    Except AnalyzerError (List (String × Nat) × ComplaintsAnalyzer) :=
  match a.data with
  | none => .error .notLoaded
  | some rs =>
    match findDescCol rs with
    | none => .ok (complaint_categories.map (fun p => (p.1, 0)), a)
    | some dc =>
      let assigned := ((rs.getCol dc).getD []).map (fun v => assignCategory (cellText v))
      let rs' := rs.setCol "Complaint_Category" (assigned.map Value.str)
      .ok (countAssigned assigned, { a with data := some rs' })

/-- `analyze_resolution_time`.  Both selected date columns are converted in
place; the resolved column is read after the submitted column was written
back (the two can coincide). -/
def analyze_resolution_time (a : ComplaintsAnalyzer) :
    Except AnalyzerError (RTResult × ComplaintsAnalyzer) :=
  match a.data with
  | none => .error .notLoaded
  | some rs =>
    if 2 ≤ (dateColsOf rs).length then
      match submittedCandidates rs, resolvedCandidates rs with
      | sc :: _, rc :: _ =>
        match toDatetimeCol ((rs.getCol sc).getD []) with
        | .error e => .error e
        | .ok ps =>
          let rs1 := rs.setCol sc (datetimeColValues ps)
          match toDatetimeCol ((rs1.getCol rc).getD []) with
          | .error e => .error e
          | .ok pr =>
            let rs2 := rs1.setCol rc (datetimeColValues pr)
            let valid := (diffDays ps pr).filterMap id
            .ok (.stats ⟨meanQ valid, medianQ valid, minInt? valid, maxInt? valid, varQ valid⟩,
              { a with data := some rs2 })
      | _, _ => .ok (.empty, a)
    else
      .ok (.empty, a)

/-- `get_top_issues`. -/
def get_top_issues (n : Int) (a : ComplaintsAnalyzer) :
    Except AnalyzerError (List (Value × Nat) × ComplaintsAnalyzer) :=
  match a.data with
  | none => .error .notLoaded
  | some rs =>
    match findIssueCol rs with
    | some ic => .ok (headPd n (value_counts ((rs.getCol ic).getD [])), a)
    | none => .ok ([], a)

/-- `generate_summary_report`: runs the five analyses in order (threading the
data mutations) and caches the assembled report. -/
def generate_summary_report (a : ComplaintsAnalyzer) :
    Except AnalyzerError (AnalysisReport × ComplaintsAnalyzer) :=
  match a.data with
  | none => .error .notLoaded
  | some _ =>
    match get_data_overview a with
    | .error e => .error e
    | .ok ov =>
      match analyze_complaint_volume ov.2 with
      | .error e => .error e
      | .ok vol =>
        match categorize_complaints vol.2 with
        | .error e => .error e
        | .ok cats =>
          match analyze_resolution_time cats.2 with
          | .error e => .error e
          | .ok rt =>
            match get_top_issues 10 rt.2 with
            | .error e => .error e
            | .ok ti =>
              let report : AnalysisReport := ⟨ov.1, vol.1, cats.1, rt.1, ti.1⟩
              .ok (report, { ti.2 with analysis_results := some report })

/-- `get_analysis_results`: returns the cached report unconditionally. -/
def get_analysis_results (a : ComplaintsAnalyzer) : Option AnalysisReport :=
  a.analysis_results

/-! ### Column-update lemmas -/

theorem setColAux_find?_ne (name nm : String) (vs : List Value) (h : name ≠ nm) :
    ∀ cols : List (String × List Value),
      (setColAux nm vs cols).find? (fun p => p.1 == name)
        = cols.find? (fun p => p.1 == name)
  | [] => by
    simp [setColAux, List.find?_cons, Ne.symm h]
  | (n, old) :: rest => by
    by_cases hn : n = nm
    · subst hn
      simp [setColAux, List.find?_cons, Ne.symm h]
    · have ih := setColAux_find?_ne name nm vs h rest
      simp only [setColAux, beq_iff_eq, hn, if_false, List.find?_cons, ih]

theorem getCol_setCol_ne (rs : RecordSet) (name nm : String) (vs : List Value)
    (h : name ≠ nm) : (rs.setCol nm vs).getCol name = rs.getCol name := by
  unfold RecordSet.getCol RecordSet.setCol
  rw [setColAux_find?_ne name nm vs h rs.cols]

theorem setColAux_find?_self (nm : String) (vs : List Value) :
    ∀ cols : List (String × List Value),
      (setColAux nm vs cols).find? (fun p => p.1 == nm) = some (nm, vs)
  | [] => by simp [setColAux, List.find?_cons]
  | (n, old) :: rest => by
    by_cases hn : n = nm
    · subst hn
      simp [setColAux, List.find?_cons]
    · have ih := setColAux_find?_self nm vs rest
      simp [setColAux, hn, List.find?_cons, ih]

theorem getCol_setCol_self (rs : RecordSet) (nm : String) (vs : List Value) :
    (rs.setCol nm vs).getCol nm = some vs := by
  unfold RecordSet.getCol RecordSet.setCol
  rw [setColAux_find?_self nm vs rs.cols]
  rfl

theorem setColAux_any_ne (name nm : String) (vs : List Value) (h : name ≠ nm) :
    ∀ cols : List (String × List Value),
      (setColAux nm vs cols).any (fun p => p.1 == name) = cols.any (fun p => p.1 == name)
  | [] => by simp [setColAux, Ne.symm h]
  | (n, old) :: rest => by
    by_cases hn : n = nm
    · subst hn
      simp [setColAux, Ne.symm h]
    · have ih := setColAux_any_ne name nm vs h rest
      simp only [setColAux, beq_iff_eq, hn, if_false, List.any_cons, ih]

theorem hasCol_setCol_ne (rs : RecordSet) (name nm : String) (vs : List Value)
    (h : name ≠ nm) : (rs.setCol nm vs).hasCol name = rs.hasCol name := by
  unfold RecordSet.hasCol RecordSet.setCol
  exact setColAux_any_ne name nm vs h rs.cols

theorem setColAux_setColAux (nm : String) (vs vs' : List Value) :
    ∀ cols, setColAux nm vs (setColAux nm vs' cols) = setColAux nm vs cols
  | [] => by simp [setColAux]
  | (n, old) :: rest => by
    by_cases hn : n = nm
    · subst hn
      simp [setColAux]
    · have ih := setColAux_setColAux nm vs vs' rest
      simp only [setColAux, beq_iff_eq, hn, if_false, ih]

theorem setCol_setCol_self (rs : RecordSet) (nm : String) (vs vs' : List Value) :
    (rs.setCol nm vs').setCol nm vs = rs.setCol nm vs := by
  unfold RecordSet.setCol
  simp [setColAux_setColAux]

theorem find?_congr {α : Type} (p q : α → Bool) :
    ∀ l : List α, (∀ a ∈ l, p a = q a) → l.find? p = l.find? q
  | [], _ => rfl
  | a :: l, h => by
    have ha : p a = q a := h a (by simp)
    have ih := find?_congr p q l (fun b hb => h b (by simp [hb]))
    cases hq : q a with
    | true => simp [List.find?_cons, ha, hq]
    | false => simp [List.find?_cons, ha, hq, ih]

theorem findDescCol_setCol_CC (rs : RecordSet) (vs : List Value) :
    findDescCol (rs.setCol "Complaint_Category" vs) = findDescCol rs := by
  unfold findDescCol
  refine find?_congr _ _ _ ?_
  intro c hc
  have hne : c ≠ "Complaint_Category" := by
    simp only [List.mem_cons, List.mem_singleton] at hc
    rcases hc with rfl | rfl | rfl | rfl | rfl | hc
    · decide
    · decide
    · decide
    · decide
    · decide
    · simp at hc; subst hc; decide
  exact hasCol_setCol_ne rs c "Complaint_Category" vs hne

/-! ### The spec's per-row categorization, and its agreement with the code -/

/-- The spec's description of per-row categorization: the FIRST category in
definition order for which ANY keyword is a substring of the case-folded
text; `"other"` when no category matches. -/
def specFirstCategory (t : String) : String :=
  match complaint_categories.find? (fun p => p.2.any (fun kw => strContains t kw)) with
  | some p => p.1
  | none => "other"

theorem categoryLoop_eq_find (t : String) :
    ∀ l : List (String × List String),
      categoryLoop t l
        = (match l.find? (fun p => p.2.any (fun kw => strContains t kw)) with
           | some p => p.1
           | none => "other")
  | [] => rfl
  | (cat, kws) :: rest => by
    cases h : kws.any (fun kw => strContains t kw) with
    | true => simp [categoryLoop, List.find?_cons, h]
    | false => simp [categoryLoop, List.find?_cons, h, categoryLoop_eq_find t rest]

theorem assignCategory_eq_spec (t : String) : assignCategory t = specFirstCategory t :=
  categoryLoop_eq_find t complaint_categories

/-! ### Claims -/

/-- C1: for every loaded record set with a designated text column (first
alias match), `categorize_complaints` writes a `Complaint_Category` column
whose every row holds the first category in definition order having a keyword
substring match on the row's case-folded text (missing treated as the empty
string), or `"other"` when no category's keyword matches. -/
theorem c1_categorize_first_match (a : ComplaintsAnalyzer) (rs : RecordSet) (dc : String)
    (hd : a.data = some rs) (hdc : findDescCol rs = some dc) :
    ∃ cnts a', categorize_complaints a = .ok (cnts, a') ∧
      ∃ rs', a'.data = some rs' ∧
        rs'.getCol "Complaint_Category"
          = some (((rs.getCol dc).getD []).map
              (fun v => Value.str (specFirstCategory (cellText v)))) := by
  unfold categorize_complaints
  simp only [hd, hdc]
  refine ⟨_, _, rfl, _, rfl, ?_⟩
  rw [getCol_setCol_self]
  simp [List.map_map, Function.comp, assignCategory_eq_spec]

/-- Witness for C1 at a concrete three-row record set. -/
theorem c1_witness :
    (ComplaintsAnalyzer.mk
        (some ⟨[("Complaint", [Value.str "Billing fee charged", Value.missing,
                               Value.str "weird thing"])]⟩) none).data
      = some ⟨[("Complaint", [Value.str "Billing fee charged", Value.missing,
                              Value.str "weird thing"])]⟩ ∧
    findDescCol ⟨[("Complaint", [Value.str "Billing fee charged", Value.missing,
                                 Value.str "weird thing"])]⟩ = some "Complaint" ∧
    (∃ cnts a', categorize_complaints
        (ComplaintsAnalyzer.mk
          (some ⟨[("Complaint", [Value.str "Billing fee charged", Value.missing,
                                 Value.str "weird thing"])]⟩) none) = .ok (cnts, a') ∧
      ∃ rs', a'.data = some rs' ∧
        rs'.getCol "Complaint_Category"
          = some ((((⟨[("Complaint", [Value.str "Billing fee charged", Value.missing,
                       Value.str "weird thing"])]⟩ : RecordSet).getCol "Complaint").getD []).map
              (fun v => Value.str (specFirstCategory (cellText v))))) :=
  ⟨rfl, by decide, c1_categorize_first_match _ _ "Complaint" rfl (by decide)⟩

/-- C6: `categorize_complaints` is idempotent: a second call on the analyzer
returned by the first call yields the identical count mapping and the
identical analyzer state (the `Complaint_Category` column is overwritten with
the same values, not duplicated). -/
theorem c6_categorize_idempotent (a : ComplaintsAnalyzer)
    (p : List (String × Nat) × ComplaintsAnalyzer)
    (h : categorize_complaints a = .ok p) :
    categorize_complaints p.2 = .ok p := by
  unfold categorize_complaints at h ⊢
  cases hd : a.data with
  | none =>
    simp only [hd] at h
    exact absurd h (by simp)
  | some rs =>
    simp only [hd] at h
    cases hdc : findDescCol rs with
    | none =>
      simp only [hdc] at h
      obtain rfl : (complaint_categories.map (fun p => (p.1, 0)), a) = p := by
        simpa using h
      simp only [hd, hdc]
    | some dc =>
      simp only [hdc, Except.ok.injEq] at h
      obtain rfl := h
      have hmem : dc ∈ ["Complaint", "complaint", "Description", "description",
          "Issue", "issue"] := List.mem_of_find?_eq_some hdc
      have hne : dc ≠ "Complaint_Category" := by
        simp only [List.mem_cons, List.mem_singleton] at hmem
        rcases hmem with rfl | rfl | rfl | rfl | rfl | hmem
        · decide
        · decide
        · decide
        · decide
        · decide
        · simp at hmem; subst hmem; decide
      have hgc := getCol_setCol_ne rs dc "Complaint_Category"
        (List.map Value.str (List.map (fun v => assignCategory (cellText v))
          ((rs.getCol dc).getD []))) hne
      simp only [findDescCol_setCol_CC, hdc, hgc, setCol_setCol_self]

/-- Witness for C6 at a concrete one-row record set. -/
theorem c6_witness :
    categorize_complaints (ComplaintsAnalyzer.mk
        (some ⟨[("Complaint", [Value.str "billing issue"])]⟩) none)
      = .ok ([("billing", 1), ("service", 0), ("account", 0), ("product", 0), ("fraud", 0)],
          ComplaintsAnalyzer.mk
            (some ⟨[("Complaint", [Value.str "billing issue"]),
                    ("Complaint_Category", [Value.str "billing"])]⟩) none) ∧
    categorize_complaints (ComplaintsAnalyzer.mk
        (some ⟨[("Complaint", [Value.str "billing issue"]),
                ("Complaint_Category", [Value.str "billing"])]⟩) none)
      = .ok ([("billing", 1), ("service", 0), ("account", 0), ("product", 0), ("fraud", 0)],
          ComplaintsAnalyzer.mk
            (some ⟨[("Complaint", [Value.str "billing issue"]),
                    ("Complaint_Category", [Value.str "billing"])]⟩) none) :=
  ⟨by rfl,
   c6_categorize_idempotent
     (ComplaintsAnalyzer.mk (some ⟨[("Complaint", [Value.str "billing issue"])]⟩) none)
     ([("billing", 1), ("service", 0), ("account", 0), ("product", 0), ("fraud", 0)],
      ComplaintsAnalyzer.mk
        (some ⟨[("Complaint", [Value.str "billing issue"]),
                ("Complaint_Category", [Value.str "billing"])]⟩) none)
     (by rfl)⟩

/-- C7: every query operation invoked before any successful load fails with
the not-loaded error, while the cached-results accessor never fails: it
returns the analyzer's cached value unconditionally, the empty sentinel on a
fresh analyzer. -/
theorem c7_queries_before_load (a : ComplaintsAnalyzer) (n : Int) (h : a.data = none) :
    get_data_overview a = .error .notLoaded ∧
    analyze_complaint_volume a = .error .notLoaded ∧
    categorize_complaints a = .error .notLoaded ∧
    analyze_resolution_time a = .error .notLoaded ∧
    get_top_issues n a = .error .notLoaded ∧
    generate_summary_report a = .error .notLoaded ∧
    get_analysis_results a = a.analysis_results ∧
    get_analysis_results ComplaintsAnalyzer.init = none := by
  refine ⟨?_, ?_, ?_, ?_, ?_, ?_, rfl, rfl⟩ <;>
    simp [get_data_overview, analyze_complaint_volume, categorize_complaints,
      analyze_resolution_time, get_top_issues, generate_summary_report, h]

/-- Witness for C7 on the freshly constructed analyzer. -/
theorem c7_witness :
    ComplaintsAnalyzer.init.data = none ∧
    (get_data_overview ComplaintsAnalyzer.init = .error .notLoaded ∧
     analyze_complaint_volume ComplaintsAnalyzer.init = .error .notLoaded ∧
     categorize_complaints ComplaintsAnalyzer.init = .error .notLoaded ∧
     analyze_resolution_time ComplaintsAnalyzer.init = .error .notLoaded ∧
     get_top_issues 5 ComplaintsAnalyzer.init = .error .notLoaded ∧
     generate_summary_report ComplaintsAnalyzer.init = .error .notLoaded ∧
     get_analysis_results ComplaintsAnalyzer.init = ComplaintsAnalyzer.init.analysis_results ∧
     get_analysis_results ComplaintsAnalyzer.init = none) :=
  ⟨rfl, c7_queries_before_load ComplaintsAnalyzer.init 5 rfl⟩

/-- C10: after a report is generated, loading a new record set leaves the
cached report unchanged and the accessor still returns it. -/
theorem c10_load_preserves_report (a a1 : ComplaintsAnalyzer) (r : AnalysisReport)
    (rs2 : RecordSet) (h : generate_summary_report a = .ok (r, a1)) :
    (load_data a1 rs2).analysis_results = a1.analysis_results ∧
    get_analysis_results (load_data a1 rs2) = some r := by
  have har : a1.analysis_results = some r := by
    unfold generate_summary_report at h
    split at h
    · exact absurd h (by simp)
    · split at h
      · exact absurd h (by simp)
      · split at h
        · exact absurd h (by simp)
        · split at h
          · exact absurd h (by simp)
          · split at h
            · exact absurd h (by simp)
            · split at h
              · exact absurd h (by simp)
              · simp only [Except.ok.injEq, Prod.mk.injEq] at h
                obtain ⟨rfl, rfl⟩ := h
                rfl
  exact ⟨rfl, har⟩

/-- Concrete data for the C10 witness: a one-column record set on which report
generation succeeds. -/
def c10rs : RecordSet := ⟨[("Date", [Value.str "2024-01-01"])]⟩

/-- The analyzer holding `c10rs`. -/
def c10a : ComplaintsAnalyzer := ⟨some c10rs, none⟩

/-- The report `generate_summary_report` produces from `c10rs`. -/
def c10report : AnalysisReport :=
  ⟨⟨1, 1, [("Date", 0)]⟩,
   .result [((2024, 1), 1)] 1 (some (2024, 1)),
   [("billing", 0), ("service", 0), ("account", 0), ("product", 0), ("fraud", 0)],
   .empty,
   []⟩

/-- The analyzer state after that report generation (date column parsed in
place, report cached). -/
def c10a1 : ComplaintsAnalyzer :=
  ⟨some ⟨[("Date", [Value.date ⟨2024, 1, 1⟩])]⟩, some c10report⟩

/-- A different record set loaded afterwards. -/
def c10rs2 : RecordSet := ⟨[("Date", [Value.str "2025-05-05"])]⟩

/-- Witness for C10: a concrete generate-then-load run. -/
theorem c10_witness :
    generate_summary_report c10a = .ok (c10report, c10a1) ∧
    ((load_data c10a1 c10rs2).analysis_results = c10a1.analysis_results ∧
     get_analysis_results (load_data c10a1 c10rs2) = some c10report) :=
  ⟨by rfl, c10_load_preserves_report c10a c10a1 c10report c10rs2 (by rfl)⟩

/-- C2 counterexample: `analyze_complaint_volume` does NOT leave the held
record set unchanged — it replaces the Date column's text value with its
parsed date, so the claim that every derivation except categorize leaves
every column's values unmodified fails on this one-row record set. -/
theorem c2_counterexample :
    analyze_complaint_volume
        (ComplaintsAnalyzer.mk (some ⟨[("Date", [Value.str "2024-01-01"])]⟩) none)
      = .ok (.result [((2024, 1), 1)] 1 (some (2024, 1)),
          ComplaintsAnalyzer.mk (some ⟨[("Date", [Value.date ⟨2024, 1, 1⟩])]⟩) none) ∧
    (⟨[("Date", [Value.date ⟨2024, 1, 1⟩])]⟩ : RecordSet)
      ≠ ⟨[("Date", [Value.str "2024-01-01"])]⟩ :=
  ⟨by rfl, by decide⟩

/-- C2 amended: overview and top-issues leave the analyzer unchanged; volume
analysis changes at most the `Date`/`date` column (writing parsed dates);
resolution-time analysis changes at most date-like columns; categorize
changes at most the `Complaint_Category` column. -/
theorem c2_amended_frame :
    (∀ a ov a', get_data_overview a = .ok (ov, a') → a' = a) ∧
    (∀ a n r a', get_top_issues n a = .ok (r, a') → a' = a) ∧
    (∀ a rs v a', a.data = some rs → analyze_complaint_volume a = .ok (v, a') →
      ∃ rs', a'.data = some rs' ∧
        ∀ name, name ≠ "Date" → name ≠ "date" → rs'.getCol name = rs.getCol name) ∧
    (∀ a rs v a', a.data = some rs → analyze_resolution_time a = .ok (v, a') →
      ∃ rs', a'.data = some rs' ∧
        ∀ name, name ∉ dateColsOf rs → rs'.getCol name = rs.getCol name) ∧
    (∀ a rs c a', a.data = some rs → categorize_complaints a = .ok (c, a') →
      ∃ rs', a'.data = some rs' ∧
        ∀ name, name ≠ "Complaint_Category" → rs'.getCol name = rs.getCol name) := by
  refine ⟨?_, ?_, ?_, ?_, ?_⟩
  · intro a ov a' h
    unfold get_data_overview at h
    cases hd : a.data with
    | none => simp only [hd] at h; exact absurd h (by simp)
    | some rs =>
      simp only [hd, Except.ok.injEq, Prod.mk.injEq] at h
      exact h.2.symm
  · intro a n r a' h
    unfold get_top_issues at h
    cases hd : a.data with
    | none => simp only [hd] at h; exact absurd h (by simp)
    | some rs =>
      simp only [hd] at h
      cases hic : findIssueCol rs with
      | some ic =>
        simp only [hic, Except.ok.injEq, Prod.mk.injEq] at h
        exact h.2.symm
      | none =>
        simp only [hic, Except.ok.injEq, Prod.mk.injEq] at h
        exact h.2.symm
  · intro a rs v a' hd h
    unfold analyze_complaint_volume at h
    simp only [hd] at h
    split at h
    · split at h
      · exact absurd h (by simp)
      · simp only [Except.ok.injEq, Prod.mk.injEq] at h
        obtain ⟨_, rfl⟩ := h
        refine ⟨_, rfl, ?_⟩
        intro name h1 h2
        refine getCol_setCol_ne rs name (volumeDateCol rs) _ ?_
        unfold volumeDateCol
        split
        · exact h1
        · exact h2
    · simp only [Except.ok.injEq, Prod.mk.injEq] at h
      obtain ⟨_, rfl⟩ := h
      exact ⟨rs, hd, fun _ _ _ => rfl⟩
  · intro a rs v a' hd h
    unfold analyze_resolution_time at h
    simp only [hd] at h
    split at h
    · split at h
      case _ sc scs rc rcs hsub hres =>
        split at h
        · exact absurd h (by simp)
        · split at h
          · exact absurd h (by simp)
          · simp only [Except.ok.injEq, Prod.mk.injEq] at h
            obtain ⟨_, rfl⟩ := h
            refine ⟨_, rfl, ?_⟩
            intro name hnd
            have hsc : sc ∈ dateColsOf rs := by
              have : sc ∈ submittedCandidates rs := by rw [hsub]; exact List.mem_cons_self _ _
              exact List.mem_of_mem_filter this
            have hrc : rc ∈ dateColsOf rs := by
              have : rc ∈ resolvedCandidates rs := by rw [hres]; exact List.mem_cons_self _ _
              exact List.mem_of_mem_filter this
            have hns : name ≠ sc := fun hh => hnd (hh ▸ hsc)
            have hnr : name ≠ rc := fun hh => hnd (hh ▸ hrc)
            rw [getCol_setCol_ne _ name rc _ hnr, getCol_setCol_ne rs name sc _ hns]
      case _ =>
        simp only [Except.ok.injEq, Prod.mk.injEq] at h
        obtain ⟨_, rfl⟩ := h
        exact ⟨rs, hd, fun _ _ => rfl⟩
    · simp only [Except.ok.injEq, Prod.mk.injEq] at h
      obtain ⟨_, rfl⟩ := h
      exact ⟨rs, hd, fun _ _ => rfl⟩
  · intro a rs c a' hd h
    unfold categorize_complaints at h
    simp only [hd] at h
    cases hdc : findDescCol rs with
    | none =>
      simp only [hdc, Except.ok.injEq, Prod.mk.injEq] at h
      obtain ⟨_, rfl⟩ := h
      exact ⟨rs, hd, fun _ _ => rfl⟩
    | some dc =>
      simp only [hdc, Except.ok.injEq, Prod.mk.injEq] at h
      obtain ⟨_, rfl⟩ := h
      refine ⟨_, rfl, ?_⟩
      intro name hn
      exact getCol_setCol_ne rs name "Complaint_Category" _ hn

/-- Witness for C2's amended claim: a concrete volume run instantiating the
third conjunct (only the Date column changed). -/
theorem c2_amended_frame_witness :
    analyze_complaint_volume
        (ComplaintsAnalyzer.mk
          (some ⟨[("Date", [Value.str "2024-01-01"]), ("Status", [Value.str "Open"])]⟩) none)
      = .ok (.result [((2024, 1), 1)] 1 (some (2024, 1)),
          ComplaintsAnalyzer.mk
            (some ⟨[("Date", [Value.date ⟨2024, 1, 1⟩]), ("Status", [Value.str "Open"])]⟩) none) ∧
    (∃ rs', (ComplaintsAnalyzer.mk
          (some ⟨[("Date", [Value.date ⟨2024, 1, 1⟩]), ("Status", [Value.str "Open"])]⟩)
          none).data = some rs' ∧
      ∀ name, name ≠ "Date" → name ≠ "date" →
        rs'.getCol name
          = (⟨[("Date", [Value.str "2024-01-01"]), ("Status", [Value.str "Open"])]⟩ :
              RecordSet).getCol name) :=
  ⟨by rfl,
   c2_amended_frame.2.2.1
     (ComplaintsAnalyzer.mk
       (some ⟨[("Date", [Value.str "2024-01-01"]), ("Status", [Value.str "Open"])]⟩) none)
     ⟨[("Date", [Value.str "2024-01-01"]), ("Status", [Value.str "Open"])]⟩
     (.result [((2024, 1), 1)] 1 (some (2024, 1)))
     (ComplaintsAnalyzer.mk
       (some ⟨[("Date", [Value.date ⟨2024, 1, 1⟩]), ("Status", [Value.str "Open"])]⟩) none)
     rfl (by rfl)⟩

/-- C4 counterexample: `get_top_issues` with a negative `n` does NOT return
an empty ranking: `Series.head(-1)` keeps all but the last entry. -/
theorem c4_counterexample :
    get_top_issues (-1)
        (ComplaintsAnalyzer.mk
          (some ⟨[("Issue", [Value.str "A", Value.str "A", Value.str "B"])]⟩) none)
      = .ok ([(Value.str "A", 2)],
          ComplaintsAnalyzer.mk
            (some ⟨[("Issue", [Value.str "A", Value.str "A", Value.str "B"])]⟩) none) ∧
    ([(Value.str "A", 2)] : List (Value × Nat)) ≠ [] :=
  ⟨by rfl, by decide⟩

/-- C4 amended: with an issue column present, `n = 0` yields an empty
ranking, while `n < 0` yields the full ranking minus its last `|n|` entries
(pandas `head` semantics) — empty only when `|n|` reaches the number of
distinct present values. -/
theorem c4_amended (a : ComplaintsAnalyzer) (rs : RecordSet) (ic : String) (n : Int)
    (hd : a.data = some rs) (hic : findIssueCol rs = some ic) :
    (n = 0 → get_top_issues n a = .ok ([], a)) ∧
    (n < 0 → get_top_issues n a
      = .ok ((value_counts ((rs.getCol ic).getD [])).take
          ((value_counts ((rs.getCol ic).getD [])).length - (-n).toNat), a)) := by
  unfold get_top_issues
  simp only [hd, hic]
  constructor
  · rintro rfl
    simp [headPd]
  · intro hn
    have : ¬ (0 : Int) ≤ n := not_le.mpr hn
    simp [headPd, this]

/-- Witness for C4's amended claim at `n = -1` on concrete data. -/
theorem c4_amended_witness :
    findIssueCol ⟨[("Issue", [Value.str "A", Value.str "A", Value.str "B"])]⟩ = some "Issue" ∧
    (-1 : Int) < 0 ∧
    get_top_issues (-1)
        (ComplaintsAnalyzer.mk
          (some ⟨[("Issue", [Value.str "A", Value.str "A", Value.str "B"])]⟩) none)
      = .ok ((value_counts
            (((⟨[("Issue", [Value.str "A", Value.str "A", Value.str "B"])]⟩ :
                RecordSet).getCol "Issue").getD [])).take
          ((value_counts
            (((⟨[("Issue", [Value.str "A", Value.str "A", Value.str "B"])]⟩ :
                RecordSet).getCol "Issue").getD [])).length - ((-(-1) : Int)).toNat),
          ComplaintsAnalyzer.mk
            (some ⟨[("Issue", [Value.str "A", Value.str "A", Value.str "B"])]⟩) none) :=
  ⟨by decide, by decide,
   (c4_amended
     (ComplaintsAnalyzer.mk
       (some ⟨[("Issue", [Value.str "A", Value.str "A", Value.str "B"])]⟩) none)
     ⟨[("Issue", [Value.str "A", Value.str "A", Value.str "B"])]⟩
     "Issue" (-1) rfl (by decide)).2 (by decide)⟩

/-- C9 counterexample: when every row matches a keyword category, the mapping
returned by categorize has NO `"other"` entry at all (the claim requires an
`"other"` entry with count 0). -/
theorem c9_counterexample :
    categorize_complaints
        (ComplaintsAnalyzer.mk (some ⟨[("Complaint", [Value.str "billing problem"])]⟩) none)
      = .ok ([("billing", 1), ("service", 0), ("account", 0), ("product", 0), ("fraud", 0)],
          ComplaintsAnalyzer.mk
            (some ⟨[("Complaint", [Value.str "billing problem"]),
                    ("Complaint_Category", [Value.str "billing"])]⟩) none) ∧
    List.lookup "other"
        ([("billing", 1), ("service", 0), ("account", 0), ("product", 0), ("fraud", 0)] :
          List (String × Nat)) = none :=
  ⟨by rfl, by decide⟩

/-- C9 amended: the returned mapping has an entry for every defined category
label (possibly 0), and an `"other"` entry exactly when at least one row is
assigned `"other"` (carrying that count); no `"other"` entry otherwise. -/
theorem c9_amended (a : ComplaintsAnalyzer) (rs : RecordSet) (dc : String)
    (hd : a.data = some rs) (hdc : findDescCol rs = some dc) :
    ∃ cnts a', categorize_complaints a = .ok (cnts, a') ∧
      (∀ lab kws, (lab, kws) ∈ complaint_categories →
        cnts.lookup lab
          = some ((((rs.getCol dc).getD []).map
              (fun v => specFirstCategory (cellText v))).count lab)) ∧
      (cnts.lookup "other"
        = if 0 < (((rs.getCol dc).getD []).map
              (fun v => specFirstCategory (cellText v))).count "other"
          then some ((((rs.getCol dc).getD []).map
              (fun v => specFirstCategory (cellText v))).count "other")
          else none) := by
  unfold categorize_complaints
  simp only [hd, hdc]
  refine ⟨_, _, rfl, ?_, ?_⟩
  · intro lab kws hmem
    simp only [assignCategory_eq_spec]
    simp only [complaint_categories, List.mem_cons, List.mem_singleton,
      Prod.mk.injEq] at hmem
    rcases hmem with ⟨rfl, _⟩ | ⟨rfl, _⟩ | ⟨rfl, _⟩ | ⟨rfl, _⟩ | ⟨rfl, _⟩ | hmem
    · simp [countAssigned, complaint_categories, List.lookup]
    · simp [countAssigned, complaint_categories, List.lookup]
    · simp [countAssigned, complaint_categories, List.lookup]
    · simp [countAssigned, complaint_categories, List.lookup]
    · simp [countAssigned, complaint_categories, List.lookup]
    · exact absurd hmem (by simp)
  · simp only [assignCategory_eq_spec]
    by_cases ho :
        0 < (((rs.getCol dc).getD []).map (fun v => specFirstCategory (cellText v))).count "other"
    · simp [countAssigned, complaint_categories, List.lookup, ho]
    · simp [countAssigned, complaint_categories, List.lookup, ho]

/-- Witness for C9's amended claim on a concrete two-row record set (one
keyword row, one "other" row). -/
theorem c9_amended_witness :
    findDescCol ⟨[("Complaint", [Value.str "billing problem", Value.str "xyz"])]⟩
      = some "Complaint" ∧
    (∃ cnts a', categorize_complaints
        (ComplaintsAnalyzer.mk
          (some ⟨[("Complaint", [Value.str "billing problem", Value.str "xyz"])]⟩) none)
        = .ok (cnts, a') ∧
      (∀ lab kws, (lab, kws) ∈ complaint_categories →
        cnts.lookup lab
          = some ((((((⟨[("Complaint", [Value.str "billing problem", Value.str "xyz"])]⟩ :
              RecordSet)).getCol "Complaint").getD []).map
              (fun v => specFirstCategory (cellText v))).count lab)) ∧
      (cnts.lookup "other"
        = if 0 < ((((((⟨[("Complaint", [Value.str "billing problem", Value.str "xyz"])]⟩ :
              RecordSet)).getCol "Complaint").getD []).map
              (fun v => specFirstCategory (cellText v))).count "other")
          then some ((((((⟨[("Complaint", [Value.str "billing problem", Value.str "xyz"])]⟩ :
              RecordSet)).getCol "Complaint").getD []).map
              (fun v => specFirstCategory (cellText v))).count "other")
          else none)) :=
  ⟨by decide,
   c9_amended
     (ComplaintsAnalyzer.mk
       (some ⟨[("Complaint", [Value.str "billing problem", Value.str "xyz"])]⟩) none)
     ⟨[("Complaint", [Value.str "billing problem", Value.str "xyz"])]⟩
     "Complaint" rfl (by decide)⟩

/-! ### C3: resolution-time statistics over complete rows only -/

/-- The spec's description of the eligible observations: exactly the rows
where BOTH dates are present, each contributing resolved − submitted in
days. -/
def specCompleteDiffs (ps pr : List (Option Date)) : List Int :=
  ((ps.zip pr).filter (fun q => q.1.isSome && q.2.isSome)).map
    (fun q => (((q.2.getD ⟨0, 0, 0⟩).toDays : Int) - ((q.1.getD ⟨0, 0, 0⟩).toDays : Int)))

theorem diffDays_filterMap :
    ∀ ps pr : List (Option Date),
      (diffDays ps pr).filterMap id = specCompleteDiffs ps pr
  | [], pr => by simp [diffDays, specCompleteDiffs]
  | os :: ps, [] => by simp [diffDays, specCompleteDiffs]
  | os :: ps, orr :: pr => by
    have ih := diffDays_filterMap ps pr
    rcases os with _ | s <;> rcases orr with _ | r <;>
      simp_all [diffDays, specCompleteDiffs, List.filter_cons]

/-- Concrete record set of the claim's example: one complete row (submitted
2024-01-01, resolved 2024-01-05) and one row with the resolved date
missing. -/
def c3rs : RecordSet :=
  ⟨[("Date_submitted", [Value.str "2024-01-01", Value.str "2024-01-01"]),
    ("Date_resolved", [Value.str "2024-01-05", Value.missing])]⟩

/-- The analyzer holding `c3rs`. -/
def c3a : ComplaintsAnalyzer := ⟨some c3rs, none⟩

/-- The analyzer state after the concrete resolution-time run (both date
columns parsed in place). -/
def c3a2 : ComplaintsAnalyzer :=
  ⟨some ⟨[("Date_submitted", [Value.date ⟨2024, 1, 1⟩, Value.date ⟨2024, 1, 1⟩]),
          ("Date_resolved", [Value.date ⟨2024, 1, 5⟩, Value.missing])]⟩, none⟩

/-- The resolution-time result formula: the five statistics are those of the
spec-side complete-rows difference list. -/
theorem resolution_time_stats_formula
    (a : ComplaintsAnalyzer) (rs : RecordSet) (sc : String) (scs : List String)
    (rc : String) (rcs : List String) (ps pr : List (Option Date))
    (hd : a.data = some rs)
    (hlen : 2 ≤ (dateColsOf rs).length)
    (hsub : submittedCandidates rs = sc :: scs)
    (hres : resolvedCandidates rs = rc :: rcs)
    (hps : toDatetimeCol ((rs.getCol sc).getD []) = .ok ps)
    (hpr : toDatetimeCol (((rs.setCol sc (datetimeColValues ps)).getCol rc).getD [])
      = .ok pr) :
    analyze_resolution_time a
      = .ok (.stats ⟨meanQ (specCompleteDiffs ps pr), medianQ (specCompleteDiffs ps pr),
          minInt? (specCompleteDiffs ps pr), maxInt? (specCompleteDiffs ps pr),
          varQ (specCompleteDiffs ps pr)⟩,
          { a with data := some ((rs.setCol sc (datetimeColValues ps)).setCol rc
              (datetimeColValues pr)) }) := by
  unfold analyze_resolution_time
  simp only [hd, hsub, hres]
  rw [if_pos hlen]
  simp only [hps, hpr, diffDays_filterMap]

/-- C3: with two date-like columns matching the submitted and resolved roles,
all five statistics are computed over exactly the rows where both dates are
present (rows missing either date enter none of them); on the claim's
concrete two-row example the mean is exactly 4. -/
theorem c3_resolution_excludes_missing :
    (∀ (a : ComplaintsAnalyzer) (rs : RecordSet) (sc : String) (scs : List String)
        (rc : String) (rcs : List String) (ps pr : List (Option Date)),
      a.data = some rs →
      2 ≤ (dateColsOf rs).length →
      submittedCandidates rs = sc :: scs →
      resolvedCandidates rs = rc :: rcs →
      toDatetimeCol ((rs.getCol sc).getD []) = .ok ps →
      toDatetimeCol (((rs.setCol sc (datetimeColValues ps)).getCol rc).getD []) = .ok pr →
      analyze_resolution_time a
        = .ok (.stats ⟨meanQ (specCompleteDiffs ps pr), medianQ (specCompleteDiffs ps pr),
            minInt? (specCompleteDiffs ps pr), maxInt? (specCompleteDiffs ps pr),
            varQ (specCompleteDiffs ps pr)⟩,
            { a with data := some ((rs.setCol sc (datetimeColValues ps)).setCol rc
                (datetimeColValues pr)) })) ∧
    analyze_resolution_time c3a
      = .ok (.stats ⟨some 4, some 4, some 4, some 4, none⟩, c3a2) := by
  constructor
  · exact resolution_time_stats_formula
  · have h := resolution_time_stats_formula c3a c3rs "Date_submitted" [] "Date_resolved" []
      [some ⟨2024, 1, 1⟩, some ⟨2024, 1, 1⟩] [some ⟨2024, 1, 5⟩, none]
      rfl (by decide) (by decide) (by decide) (by rfl) (by rfl)
    rw [h]
    have hds : specCompleteDiffs [some ⟨2024, 1, 1⟩, some ⟨2024, 1, 1⟩]
        [some ⟨2024, 1, 5⟩, none] = [4] := by decide
    have ha : ({ c3a with data := some ((c3rs.setCol "Date_submitted"
        (datetimeColValues [some ⟨2024, 1, 1⟩, some ⟨2024, 1, 1⟩])).setCol "Date_resolved"
        (datetimeColValues [some ⟨2024, 1, 5⟩, none])) } : ComplaintsAnalyzer) = c3a2 := by
      decide
    rw [hds, ha]
    norm_num [meanQ, medianQ, varQ, minInt?, maxInt?, sortIntsAsc, insertIntAsc]

/-- Witness for C3's general conjunct at the concrete example data. -/
theorem c3_witness :
    (c3a.data = some c3rs ∧
     2 ≤ (dateColsOf c3rs).length ∧
     submittedCandidates c3rs = ["Date_submitted"] ∧
     resolvedCandidates c3rs = ["Date_resolved"] ∧
     toDatetimeCol ((c3rs.getCol "Date_submitted").getD [])
       = .ok [some ⟨2024, 1, 1⟩, some ⟨2024, 1, 1⟩] ∧
     toDatetimeCol (((c3rs.setCol "Date_submitted"
         (datetimeColValues [some ⟨2024, 1, 1⟩, some ⟨2024, 1, 1⟩])).getCol
           "Date_resolved").getD [])
       = .ok [some ⟨2024, 1, 5⟩, none]) ∧
    analyze_resolution_time c3a
      = .ok (.stats
          ⟨meanQ (specCompleteDiffs [some ⟨2024, 1, 1⟩, some ⟨2024, 1, 1⟩]
              [some ⟨2024, 1, 5⟩, none]),
           medianQ (specCompleteDiffs [some ⟨2024, 1, 1⟩, some ⟨2024, 1, 1⟩]
              [some ⟨2024, 1, 5⟩, none]),
           minInt? (specCompleteDiffs [some ⟨2024, 1, 1⟩, some ⟨2024, 1, 1⟩]
              [some ⟨2024, 1, 5⟩, none]),
           maxInt? (specCompleteDiffs [some ⟨2024, 1, 1⟩, some ⟨2024, 1, 1⟩]
              [some ⟨2024, 1, 5⟩, none]),
           varQ (specCompleteDiffs [some ⟨2024, 1, 1⟩, some ⟨2024, 1, 1⟩]
              [some ⟨2024, 1, 5⟩, none])⟩,
          { c3a with data := some ((c3rs.setCol "Date_submitted"
              (datetimeColValues [some ⟨2024, 1, 1⟩, some ⟨2024, 1, 1⟩])).setCol
                "Date_resolved" (datetimeColValues [some ⟨2024, 1, 5⟩, none])) }) :=
  ⟨⟨rfl, by decide, by decide, by decide, by rfl, by rfl⟩,
   c3_resolution_excludes_missing.1 c3a c3rs "Date_submitted" [] "Date_resolved" []
     [some ⟨2024, 1, 1⟩, some ⟨2024, 1, 1⟩] [some ⟨2024, 1, 5⟩, none]
     rfl (by decide) (by decide) (by decide) (by rfl) (by rfl)⟩

/-! ### C8: ranking order of `get_top_issues` -/

theorem mem_insertByCount (p q : Value × Nat) (l : List (Value × Nat)) :
    q ∈ insertByCount p l ↔ q = p ∨ q ∈ l := by
  induction l with
  | nil => simp [insertByCount]
  | cons x xs ih =>
    simp only [insertByCount]
    by_cases hlt : p.2 < x.2
    · rw [if_pos hlt]
      simp only [List.mem_cons, ih]
      tauto
    · rw [if_neg hlt]
      simp only [List.mem_cons]

theorem pairwise_insertByCount (p : Value × Nat) (l : List (Value × Nat))
    (hl : l.Pairwise (fun x y => y.2 ≤ x.2)) :
    (insertByCount p l).Pairwise (fun x y => y.2 ≤ x.2) := by
  induction l with
  | nil => simp [insertByCount]
  | cons x xs ih =>
    rcases List.pairwise_cons.mp hl with ⟨hx, hxs⟩
    simp only [insertByCount]
    by_cases hlt : p.2 < x.2
    · rw [if_pos hlt]
      refine List.pairwise_cons.mpr ⟨?_, ih hxs⟩
      intro y hy
      rcases (mem_insertByCount p y xs).mp hy with rfl | hy
      · exact le_of_lt hlt
      · exact hx y hy
    · rw [if_neg hlt]
      refine List.pairwise_cons.mpr ⟨?_, hl⟩
      intro y hy
      rcases List.mem_cons.mp hy with rfl | hy
      · exact not_lt.mp hlt
      · exact le_trans (hx y hy) (not_lt.mp hlt)

theorem sortByCountDesc_pairwise (l : List (Value × Nat)) :
    (sortByCountDesc l).Pairwise (fun x y => y.2 ≤ x.2) := by
  induction l with
  | nil => simp [sortByCountDesc]
  | cons p rest ih => exact pairwise_insertByCount p _ ih

theorem filter_insertByCount (p : Value × Nat) (c : Nat) (l : List (Value × Nat))
    (hl : l.Pairwise (fun x y => y.2 ≤ x.2)) :
    (insertByCount p l).filter (fun q => q.2 == c)
      = if p.2 = c then p :: l.filter (fun q => q.2 == c)
        else l.filter (fun q => q.2 == c) := by
  induction l with
  | nil =>
    by_cases hpc : p.2 = c
    · have hb : (p.2 == c) = true := by simp [hpc]
      simp [insertByCount, List.filter_cons, hb, hpc]
    · have hb : (p.2 == c) = false := by simp [hpc]
      simp [insertByCount, List.filter_cons, hb, hpc]
  | cons x xs ih =>
    rcases List.pairwise_cons.mp hl with ⟨hx, hxs⟩
    by_cases hlt : p.2 < x.2
    · simp only [insertByCount, if_pos hlt, List.filter_cons]
      by_cases hpc : p.2 = c
      · have hxc : ¬ x.2 = c := by omega
        simp [hxc, ih hxs, hpc]
      · by_cases hxc : x.2 = c
        · simp [hxc, ih hxs, hpc]
        · simp [hxc, ih hxs, hpc]
    · simp only [insertByCount, if_neg hlt, List.filter_cons]
      by_cases hpc : p.2 = c <;> simp [hpc]

theorem sortByCountDesc_filter (c : Nat) (l : List (Value × Nat)) :
    (sortByCountDesc l).filter (fun q => q.2 == c) = l.filter (fun q => q.2 == c) := by
  induction l with
  | nil => rfl
  | cons p rest ih =>
    have hs : sortByCountDesc (p :: rest) = insertByCount p (sortByCountDesc rest) := rfl
    rw [hs, filter_insertByCount p c _ (sortByCountDesc_pairwise rest), List.filter_cons]
    by_cases hpc : p.2 = c <;> simp [hpc, ih]

/-- Concrete issue column realizing value counts A:5, B:5, C:3, D:1 with A
first encountered before B. -/
def c8vals : List Value :=
  [Value.str "A", Value.str "B", Value.str "A", Value.str "B", Value.str "A",
   Value.str "B", Value.str "A", Value.str "B", Value.str "A", Value.str "B",
   Value.str "C", Value.str "C", Value.str "C", Value.str "D"]

/-- The record set holding `c8vals` as its issue column. -/
def c8rs : RecordSet := ⟨[("Issue", c8vals)]⟩

/-- The analyzer holding `c8rs`. -/
def c8a : ComplaintsAnalyzer := ⟨some c8rs, none⟩

/-- C8: with an issue column and `n > 0`, the ranking returned by
`get_top_issues` is the `n`-prefix of a ranking that is pairwise descending
in count and whose entries of any fixed count appear exactly in
first-encountered order (the order of `uniqueCounts`); on the concrete
record set with counts A:5, B:5, C:3, D:1 (A before B), `top_issues(3)`
returns `[A, B, C]` with A before B. -/
theorem c8_top_issues_order :
    (∀ (a : ComplaintsAnalyzer) (rs : RecordSet) (ic : String) (n : Int),
      a.data = some rs → findIssueCol rs = some ic → 0 < n →
      get_top_issues n a
        = .ok ((value_counts ((rs.getCol ic).getD [])).take n.toNat, a) ∧
      (value_counts ((rs.getCol ic).getD [])).Pairwise (fun x y => y.2 ≤ x.2) ∧
      (∀ c, (value_counts ((rs.getCol ic).getD [])).filter (fun q => q.2 == c)
        = (uniqueCounts (((rs.getCol ic).getD []).filter isPresent)).filter
            (fun q => q.2 == c))) ∧
    get_top_issues 3 c8a
      = .ok ([(Value.str "A", 5), (Value.str "B", 5), (Value.str "C", 3)], c8a) := by
  constructor
  · intro a rs ic n hd hic hn
    refine ⟨?_, sortByCountDesc_pairwise _, fun c => sortByCountDesc_filter c _⟩
    unfold get_top_issues
    simp only [hd, hic]
    rw [headPd, if_pos (le_of_lt hn)]
  · rfl

/-- Witness for C8's general conjunct at the concrete A/B/C/D data. -/
theorem c8_witness :
    (c8a.data = some c8rs ∧ findIssueCol c8rs = some "Issue" ∧ (0 : Int) < 3) ∧
    (get_top_issues 3 c8a
        = .ok ((value_counts ((c8rs.getCol "Issue").getD [])).take (Int.toNat 3), c8a) ∧
      (value_counts ((c8rs.getCol "Issue").getD [])).Pairwise (fun x y => y.2 ≤ x.2) ∧
      (∀ c, (value_counts ((c8rs.getCol "Issue").getD [])).filter (fun q => q.2 == c)
        = (uniqueCounts (((c8rs.getCol "Issue").getD []).filter isPresent)).filter
            (fun q => q.2 == c))) :=
  ⟨⟨rfl, by decide, by decide⟩,
   c8_top_issues_order.1 c8a c8rs "Issue" 3 rfl (by decide) (by decide)⟩

/-! ### C5: monthly volume rollup -/

theorem mem_insertMonthKey (k q : Nat × Nat) (l : List (Nat × Nat)) :
    q ∈ insertMonthKey k l ↔ q = k ∨ q ∈ l := by
  induction l with
  | nil => simp [insertMonthKey]
  | cons m rest ih =>
    simp only [insertMonthKey]
    by_cases hlt : monthLt k m = true
    · rw [if_pos hlt]
      simp only [List.mem_cons]
    · rw [if_neg hlt]
      simp only [List.mem_cons, ih]
      tauto

theorem insertMonthKey_perm (k : Nat × Nat) (l : List (Nat × Nat)) :
    (insertMonthKey k l).Perm (k :: l) := by
  induction l with
  | nil => simp [insertMonthKey]
  | cons m rest ih =>
    simp only [insertMonthKey]
    by_cases hlt : monthLt k m = true
    · rw [if_pos hlt]
    · rw [if_neg hlt]
      exact (ih.cons m).trans (List.Perm.swap k m rest)

theorem sortMonthKeys_perm (ks : List (Nat × Nat)) : (sortMonthKeys ks).Perm ks := by
  induction ks with
  | nil => exact List.Perm.refl _
  | cons k ks ih => exact (insertMonthKey_perm k (sortMonthKeys ks)).trans (ih.cons k)

theorem mem_dedupKeys (k : Nat × Nat) (ks : List (Nat × Nat)) :
    k ∈ dedupKeys ks ↔ k ∈ ks := by
  induction ks with
  | nil => simp [dedupKeys]
  | cons x ks ih =>
    simp only [dedupKeys]
    by_cases hx : x ∈ dedupKeys ks
    · rw [if_pos hx]
      rw [ih]
      simp only [List.mem_cons]
      constructor
      · exact Or.inr
      · rintro (rfl | hk)
        · exact ih.mp hx
        · exact hk
    · rw [if_neg hx]
      simp [List.mem_cons, ih]

theorem nodup_dedupKeys (ks : List (Nat × Nat)) : (dedupKeys ks).Nodup := by
  induction ks with
  | nil => simp [dedupKeys]
  | cons x ks ih =>
    simp only [dedupKeys]
    by_cases hx : x ∈ dedupKeys ks
    · rw [if_pos hx]; exact ih
    · rw [if_neg hx]; exact List.nodup_cons.mpr ⟨hx, ih⟩

theorem monthLt_asymm (a b : Nat × Nat) (h : monthLt a b = true) : monthLt b a = false := by
  rcases a with ⟨a1, a2⟩
  rcases b with ⟨b1, b2⟩
  simp [monthLt] at h ⊢
  omega

theorem monthLt_shift (k m y : Nat × Nat) (h1 : monthLt k m = true)
    (h2 : monthLt y m = false) : monthLt y k = false := by
  rcases k with ⟨k1, k2⟩
  rcases m with ⟨m1, m2⟩
  rcases y with ⟨y1, y2⟩
  simp [monthLt] at h1 h2 ⊢
  omega

theorem monthLt_of_not_lt_ne (a b : Nat × Nat) (h1 : monthLt b a = false) (h2 : a ≠ b) :
    monthLt a b = true := by
  rcases a with ⟨a1, a2⟩
  rcases b with ⟨b1, b2⟩
  simp only [Ne, Prod.mk.injEq, not_and] at h2
  simp [monthLt] at h1 ⊢
  by_cases he : a1 = b1
  · subst he
    have h3 := fun hh => h2 rfl hh
    omega
  · omega

theorem pairwise_insertMonthKey (k : Nat × Nat) (l : List (Nat × Nat))
    (hl : l.Pairwise (fun a b => monthLt b a = false)) :
    (insertMonthKey k l).Pairwise (fun a b => monthLt b a = false) := by
  induction l with
  | nil => simp [insertMonthKey]
  | cons m rest ih =>
    rcases List.pairwise_cons.mp hl with ⟨hm, hrest⟩
    simp only [insertMonthKey]
    by_cases hlt : monthLt k m = true
    · rw [if_pos hlt]
      refine List.pairwise_cons.mpr ⟨?_, hl⟩
      intro y hy
      rcases List.mem_cons.mp hy with rfl | hy
      · exact monthLt_asymm k y hlt
      · exact monthLt_shift k m y hlt (hm y hy)
    · rw [if_neg hlt]
      have hkm : monthLt k m = false := by
        cases hbm : monthLt k m
        · rfl
        · exact absurd hbm hlt
      refine List.pairwise_cons.mpr ⟨?_, ih hrest⟩
      intro y hy
      rcases (mem_insertMonthKey k y rest).mp hy with rfl | hy
      · exact hkm
      · exact hm y hy

theorem pairwise_sortMonthKeys (ks : List (Nat × Nat)) :
    (sortMonthKeys ks).Pairwise (fun a b => monthLt b a = false) := by
  induction ks with
  | nil => simp [sortMonthKeys]
  | cons k ks ih => exact pairwise_insertMonthKey k _ ih

theorem monthKeys_strict (ms : List (Nat × Nat)) :
    (sortMonthKeys (dedupKeys ms)).Pairwise (fun a b => monthLt a b = true) := by
  have h1 := pairwise_sortMonthKeys (dedupKeys ms)
  have h2 : (sortMonthKeys (dedupKeys ms)).Nodup :=
    ((sortMonthKeys_perm (dedupKeys ms)).nodup_iff).mpr (nodup_dedupKeys ms)
  exact (h1.and h2).imp (fun hab => monthLt_of_not_lt_ne _ _ hab.1 hab.2)

theorem idxmaxFrom_split :
    ∀ (l : List ((Nat × Nat) × Nat)) (best : (Nat × Nat) × Nat),
      ∃ l₁ l₂ c, best :: l = l₁ ++ (idxmaxFrom best l, c) :: l₂ ∧
        (∀ p ∈ l₁, p.2 < c) ∧ (∀ p ∈ l₂, p.2 ≤ c)
  | [], best => ⟨[], [], best.2, by simp [idxmaxFrom], by simp, by simp⟩
  | p :: rest, best => by
    by_cases hlt : best.2 < p.2
    · obtain ⟨l₁, l₂, c, heq, h1, h2⟩ := idxmaxFrom_split rest p
      have hplec : p.2 ≤ c := by
        have hp : p ∈ p :: rest := List.mem_cons_self _ _
        rw [heq] at hp
        rcases List.mem_append.mp hp with hp | hp
        · exact le_of_lt (h1 _ hp)
        · rcases List.mem_cons.mp hp with heqp | hp
          · rw [heqp]
          · exact h2 _ hp
      refine ⟨best :: l₁, l₂, c, ?_, ?_, h2⟩
      · simp only [idxmaxFrom, if_pos hlt]
        rw [List.cons_append, ← heq]
      · intro q hq
        rcases List.mem_cons.mp hq with rfl | hq
        · exact lt_of_lt_of_le hlt hplec
        · exact h1 _ hq
    · obtain ⟨l₁, l₂, c, heq, h1, h2⟩ := idxmaxFrom_split rest best
      cases l₁ with
      | nil =>
        simp only [List.nil_append] at heq
        obtain ⟨hb, hrest⟩ := List.cons.inj heq
        refine ⟨[], p :: l₂, c, ?_, by simp, ?_⟩
        · simp only [idxmaxFrom, if_neg hlt, List.nil_append]
          rw [← hb, ← hrest]
        · intro q hq
          rcases List.mem_cons.mp hq with rfl | hq
          · have hc : best.2 = c := by rw [hb]
            have := not_lt.mp hlt
            omega
          · exact h2 _ hq
      | cons b l₁' =>
        rw [List.cons_append] at heq
        obtain ⟨hb, hrest⟩ := List.cons.inj heq
        have hbc : best.2 < c := by
          have := h1 b (List.mem_cons_self _ _)
          rw [← hb] at this
          exact this
        refine ⟨best :: p :: l₁', l₂, c, ?_, ?_, h2⟩
        · simp only [idxmaxFrom, if_neg hlt]
          rw [List.cons_append, List.cons_append, ← hrest]
        · intro q hq
          rcases List.mem_cons.mp hq with rfl | hq
          · exact hbc
          · rcases List.mem_cons.mp hq with rfl | hq
            · have := not_lt.mp hlt
              omega
            · exact h1 q (List.mem_cons_of_mem _ hq)

theorem filterMap_map_some (dates : List Date) :
    (dates.map some).filterMap (fun od => od.map Date.monthKey)
      = dates.map Date.monthKey := by
  induction dates with
  | nil => rfl
  | cons d ds ih => simp [List.filterMap_cons, ih]

theorem count_map_monthKey (dates : List Date) (k : Nat × Nat) :
    (dates.map Date.monthKey).count k = dates.countP (fun dt => dt.monthKey == k) := by
  induction dates with
  | nil => rfl
  | cons d ds ih =>
    simp [List.map_cons, List.count_cons, List.countP_cons, ih]

theorem toDatetimeCol_length :
    ∀ (vs : List Value) (ds : List (Option Date)),
      toDatetimeCol vs = .ok ds → ds.length = vs.length
  | [], ds, h => by
    simp only [toDatetimeCol, Except.ok.injEq] at h
    simp [← h]
  | v :: vs, ds, h => by
    unfold toDatetimeCol at h
    cases hv : v.toDatetime with
    | error e =>
      simp only [hv] at h
      exact absurd h (by simp)
    | ok d =>
      cases hrec : toDatetimeCol vs with
      | error e =>
        simp only [hv, hrec] at h
        exact absurd h (by simp)
      | ok ds' =>
        simp only [hv, hrec, Except.ok.injEq] at h
        have := toDatetimeCol_length vs ds' hrec
        simp [← h, this]

theorem numRows_setCol (rs : RecordSet) (n : String) (vs : List Value)
    (h : rs.hasCol n = true) (hlen : vs.length = ((rs.getCol n).getD []).length) :
    (rs.setCol n vs).numRows = rs.numRows := by
  rcases rs with ⟨cols⟩
  cases cols with
  | nil => simp [RecordSet.hasCol] at h
  | cons p rest =>
    rcases p with ⟨pn, pvs⟩
    by_cases hpn : pn = n
    · subst hpn
      simp [RecordSet.setCol, setColAux, RecordSet.numRows, RecordSet.getCol,
        List.find?_cons] at hlen ⊢
      exact hlen
    · simp [RecordSet.setCol, setColAux, hpn, RecordSet.numRows]

theorem hasCol_volumeDateCol (rs : RecordSet)
    (h : (rs.hasCol "Date" || rs.hasCol "date") = true) :
    rs.hasCol (volumeDateCol rs) = true := by
  unfold volumeDateCol
  by_cases hD : rs.hasCol "Date" = true
  · rw [if_pos hD]; exact hD
  · rw [if_neg hD]
    simp only [Bool.or_eq_true] at h
    rcases h with h | h
    · exact absurd h hD
    · exact h

/-- C5: with a Date/date column whose values all parse, the volume analysis
returns: a monthly mapping whose entries are exactly the months with a
positive row count (carrying that count), with strictly ascending month
keys; a total equal to the record set's row count; and a peak month that
attains the maximum count and precedes (or equals) every other bucket of
maximal count. -/
theorem c5_volume_monthly (a : ComplaintsAnalyzer) (rs : RecordSet) (dates : List Date)
    (hd : a.data = some rs)
    (hcol : (rs.hasCol "Date" || rs.hasCol "date") = true)
    (hparse : toDatetimeCol ((rs.getCol (volumeDateCol rs)).getD [])
      = .ok (dates.map some)) :
    ∃ mv peak a',
      analyze_complaint_volume a = .ok (.result mv rs.numRows peak, a') ∧
      (∀ k c, (k, c) ∈ mv ↔
        (0 < c ∧ c = dates.countP (fun dt => dt.monthKey == k))) ∧
      mv.Pairwise (fun x y => monthLt x.1 y.1 = true) ∧
      (mv = [] → peak = none) ∧
      (∀ pk, peak = some pk →
        ∃ c, (pk, c) ∈ mv ∧ (∀ q ∈ mv, q.2 ≤ c) ∧
          (∀ q ∈ mv, q.2 = c → q.1 = pk ∨ monthLt pk q.1 = true)) := by
  unfold analyze_complaint_volume
  simp only [hd]
  rw [if_pos hcol]
  simp only [hparse, filterMap_map_some]
  have hnum : (rs.setCol (volumeDateCol rs)
      (datetimeColValues (dates.map some))).numRows = rs.numRows := by
    refine numRows_setCol rs _ _ (hasCol_volumeDateCol rs hcol) ?_
    have hlen := toDatetimeCol_length _ _ hparse
    simp only [datetimeColValues, List.length_map]
    simpa using hlen
  rw [hnum]
  set ms := dates.map Date.monthKey with hms
  have hpw : (monthlyVolume ms).Pairwise (fun x y => monthLt x.1 y.1 = true) := by
    unfold monthlyVolume
    exact (List.pairwise_map).mpr (monthKeys_strict ms)
  have hmem : ∀ k c, ((k, c) ∈ monthlyVolume ms ↔
      (0 < c ∧ c = dates.countP (fun dt => dt.monthKey == k))) := by
    intro k c
    unfold monthlyVolume
    constructor
    · intro hmm
      rcases List.mem_map.mp hmm with ⟨k', hk', heq⟩
      have hk1 : k' = k := congrArg Prod.fst heq
      subst hk1
      have hc : c = ms.count k' := (congrArg Prod.snd heq).symm
      have hkin : k' ∈ ms := by
        have h1 := (sortMonthKeys_perm (dedupKeys ms)).mem_iff.mp hk'
        exact (mem_dedupKeys _ _).mp h1
      refine ⟨?_, by rw [hc, hms, count_map_monthKey]⟩
      rw [hc]
      exact List.count_pos_iff.mpr hkin
    · rintro ⟨hc, hcc⟩
      have hcount : c = ms.count k := by rw [hcc, hms, count_map_monthKey]
      have hkin : k ∈ ms := by
        refine List.count_pos_iff.mp ?_
        rw [← hcount]
        exact hc
      have hk' : k ∈ sortMonthKeys (dedupKeys ms) :=
        (sortMonthKeys_perm (dedupKeys ms)).mem_iff.mpr ((mem_dedupKeys _ _).mpr hkin)
      refine List.mem_map.mpr ⟨k, hk', ?_⟩
      rw [hcount]
  refine ⟨monthlyVolume ms, seriesIdxmax (monthlyVolume ms), _, rfl, hmem, hpw, ?_, ?_⟩
  · intro hnil
    rw [hnil]
    rfl
  · intro pk hpk
    cases hmv : monthlyVolume ms with
    | nil => rw [hmv] at hpk; exact absurd hpk (by simp [seriesIdxmax])
    | cons p rest =>
      rw [hmv] at hpk
      simp only [seriesIdxmax, Option.some.injEq] at hpk
      obtain ⟨l₁, l₂, c, heq, h1, h2⟩ := idxmaxFrom_split rest p
      rw [hpk] at heq
      rw [hmv] at hpw
      refine ⟨c, ?_, ?_, ?_⟩
      · rw [heq]
        exact List.mem_append.mpr (Or.inr (List.mem_cons_self _ _))
      · intro q hq
        rw [heq] at hq
        rcases List.mem_append.mp hq with hq | hq
        · exact le_of_lt (h1 _ hq)
        · rcases List.mem_cons.mp hq with rfl | hq
          · exact le_refl _
          · exact h2 _ hq
      · intro q hq hqc
        rw [heq] at hq
        rcases List.mem_append.mp hq with hq | hq
        · exact absurd hqc (by have := h1 _ hq; omega)
        · rcases List.mem_cons.mp hq with rfl | hq
          · exact Or.inl rfl
          · right
            have hpw2 : (l₁ ++ ((pk, c) :: l₂)).Pairwise
                (fun x y => monthLt x.1 y.1 = true) := by
              rw [← heq]
              exact hpw
            have hmid := (List.pairwise_append.mp hpw2).2.1
            exact List.pairwise_cons.mp hmid |>.1 q hq

/-- Concrete data for the C5 witness: three January rows and one February
row (the spec's example). -/
def c5rs : RecordSet :=
  ⟨[("Date", [Value.str "2024-01-05", Value.str "2024-01-10",
              Value.str "2024-01-15", Value.str "2024-02-03"])]⟩

/-- The analyzer holding `c5rs`. -/
def c5a : ComplaintsAnalyzer := ⟨some c5rs, none⟩

/-- The parsed dates of `c5rs`. -/
def c5dates : List Date := [⟨2024, 1, 5⟩, ⟨2024, 1, 10⟩, ⟨2024, 1, 15⟩, ⟨2024, 2, 3⟩]

/-- Witness for C5 at the spec's 3-rows-January, 1-row-February example. -/
theorem c5_witness :
    (c5a.data = some c5rs ∧
     (c5rs.hasCol "Date" || c5rs.hasCol "date") = true ∧
     toDatetimeCol ((c5rs.getCol (volumeDateCol c5rs)).getD [])
       = .ok (c5dates.map some)) ∧
    (∃ mv peak a',
      analyze_complaint_volume c5a = .ok (.result mv c5rs.numRows peak, a') ∧
      (∀ k c, (k, c) ∈ mv ↔
        (0 < c ∧ c = c5dates.countP (fun dt => dt.monthKey == k))) ∧
      mv.Pairwise (fun x y => monthLt x.1 y.1 = true) ∧
      (mv = [] → peak = none) ∧
      (∀ pk, peak = some pk →
        ∃ c, (pk, c) ∈ mv ∧ (∀ q ∈ mv, q.2 ≤ c) ∧
          (∀ q ∈ mv, q.2 = c → q.1 = pk ∨ monthLt pk q.1 = true))) :=
  ⟨⟨rfl, by decide, by rfl⟩,
   c5_volume_monthly c5a c5rs c5dates rfl (by decide) (by rfl)⟩

end AmexComplaints
